import Mathlib

/-!
Verification development for the pyfian fixed-income analytics library.

The repository ships its API documentation (autoapi rst files with docstring
formulas and doctest outputs) rather than the Python function bodies, so every
operation below is a shallow embedding reconstructed from those documented
formulas, doctests and the specification, as flagged in each doc comment.

Dates are modelled as Gregorian calendar triples, day counts over ℚ, and the
continuous-compounding curve mathematics over ℝ.
-/

namespace PyFian

/-- A Gregorian calendar date, mirroring the `pandas.Timestamp` dates (at day
resolution) used throughout the library. -/
structure Date where
  y : ℤ
  m : ℕ
  d : ℕ
deriving DecidableEq, Repr

/-- Modelled from the spec: `is_leap_year` of `pyfian.utils.day_count`
(Gregorian leap-year check used by the Actual/Actual-ISDA convention). -/
def is_leap_year (y : ℤ) : Bool :=
  (y % 4 == 0 && y % 100 != 0) || y % 400 == 0

/-- Number of days of a calendar year (366 for leap years, else 365). -/
def daysInYear (y : ℤ) : ℤ :=
  if is_leap_year y then 366 else 365

/-- Days of a Gregorian month (`m` is 1-based). -/
def daysInMonth (y : ℤ) (m : ℕ) : ℕ :=
  match m with
  | 1 => 31
  | 2 => if is_leap_year y then 29 else 28
  | 3 => 31
  | 4 => 30
  | 5 => 31
  | 6 => 30
  | 7 => 31
  | 8 => 31
  | 9 => 30
  | 10 => 31
  | 11 => 30
  | 12 => 31
  | _ => 0

/-- Cumulative days before month `m` in a year whose leap flag is `leap`. -/
def daysBeforeMonth (leap : Bool) (m : ℕ) : ℕ :=
  match m with
  | 1 => 0
  | 2 => 31
  | 3 => if leap then 60 else 59
  | 4 => if leap then 91 else 90
  | 5 => if leap then 121 else 120
  | 6 => if leap then 152 else 151
  | 7 => if leap then 182 else 181
  | 8 => if leap then 213 else 212
  | 9 => if leap then 244 else 243
  | 10 => if leap then 274 else 273
  | 11 => if leap then 305 else 304
  | 12 => if leap then 335 else 334
  | _ => if leap then 366 else 365

/-- Days from the epoch to January 1 of year `y` (proleptic Gregorian,
valid for `y ≥ 1`, the only range the library's dates inhabit). -/
def daysBeforeYear (y : ℤ) : ℤ :=
  365 * (y - 1) + (y - 1) / 4 - (y - 1) / 100 + (y - 1) / 400

/-- Serial day number of a date: the timestamp arithmetic underlying
`pandas.Timestamp` subtraction in the day-count helpers. -/
def toSerial (dt : Date) : ℤ :=
  daysBeforeYear dt.y + (daysBeforeMonth (is_leap_year dt.y) dt.m : ℤ) + dt.d

/-- Actual calendar days between two dates, as used by the Actual/… numerators. -/
def actualDays (a b : Date) : ℤ :=
  toSerial b - toSerial a

/-- A date is a well-formed (positive-year) Gregorian date. -/
def ValidDate (dt : Date) : Prop :=
  1 ≤ dt.y ∧ 1 ≤ dt.m ∧ dt.m ≤ 12 ∧ 1 ≤ dt.d ∧ dt.d ≤ daysInMonth dt.y dt.m

instance (dt : Date) : Decidable (ValidDate dt) := by
  unfold ValidDate; infer_instance

/-- January 1 of a year. -/
def jan1 (y : ℤ) : Date := ⟨y, 1, 1⟩

lemma daysBeforeYear_succ (y : ℤ) :
    daysBeforeYear (y + 1) = daysBeforeYear y + daysInYear y := by
  unfold daysBeforeYear daysInYear is_leap_year
  simp only [add_sub_cancel_right]
  split
  · rename_i h
    simp only [Bool.or_eq_true, Bool.and_eq_true, beq_iff_eq, bne_iff_ne] at h
    omega
  · rename_i h
    simp only [Bool.or_eq_true, Bool.and_eq_true, beq_iff_eq, bne_iff_ne] at h
    push_neg at h
    omega

lemma toSerial_jan1_succ (y : ℤ) :
    toSerial (jan1 (y + 1)) = toSerial (jan1 y) + daysInYear y := by
  simp [toSerial, jan1, daysBeforeMonth, daysBeforeYear_succ]
  ring

lemma daysInYear_pos (y : ℤ) : 0 < daysInYear y := by
  unfold daysInYear; split <;> norm_num

lemma toSerial_jan1_mono {a b : ℤ} (h : a ≤ b) :
    toSerial (jan1 a) ≤ toSerial (jan1 b) := by
  refine @Int.le_induction (fun n => toSerial (jan1 a) ≤ toSerial (jan1 n)) a
    (le_refl _) (fun n _ ih => ?_) b h
  have h1 := toSerial_jan1_succ n
  have h2 := daysInYear_pos n
  omega

/-- Within its own year, a valid date sits on or after January 1 and strictly
before January 1 of the next year. -/
lemma toSerial_bounds {dt : Date} (h : ValidDate dt) :
    toSerial (jan1 dt.y) ≤ toSerial dt ∧
      toSerial dt < toSerial (jan1 (dt.y + 1)) := by
  obtain ⟨_, hm1, hm2, hd1, hd2⟩ := h
  rw [toSerial_jan1_succ]
  have key : (daysBeforeMonth (is_leap_year dt.y) dt.m : ℤ) + dt.d ≤ daysInYear dt.y := by
    have hmd : (daysBeforeMonth (is_leap_year dt.y) dt.m : ℤ) + daysInMonth dt.y dt.m
        ≤ daysInYear dt.y := by
      unfold daysInYear daysInMonth daysBeforeMonth
      interval_cases dt.m <;> cases h : is_leap_year dt.y <;> simp [h]
    omega
  constructor
  · simp [toSerial, jan1, daysBeforeMonth]
    omega
  · simp [toSerial, jan1, daysBeforeMonth] at key ⊢
    omega

/-- The day-count conventions registered in `pyfian.utils.day_count`
(`DAY_COUNT_CLASSES`): 30/360, 30E/360, Actual/Actual-ISDA, Actual/Actual-Bond,
Actual/360, Actual/365 and 30/365. -/
inductive DayCountConv where
  | thirty360
  | thirtyE360
  | actActISDA
  | actActBond
  | act360
  | act365
  | thirty365
deriving DecidableEq, Repr

/-- A 31st day of month is counted as the 30th (the day adjustment documented
for the 30/360 family: "if the day is 31, it is set to 30"). -/
def cap30 (d : ℕ) : ℕ :=
  if d = 31 then 30 else d

/-- Day count as if every month had 30 days:
`360 (y₂ − y₁) + 30 (m₂ − m₁) + (d₂ − d₁)` with 31sts capped at 30. -/
def thirtyDays (a b : Date) : ℤ :=
  360 * (b.y - a.y) + 30 * ((b.m : ℤ) - a.m) + ((cap30 b.d : ℤ) - cap30 a.d)

/-- Modelled from the spec: the `numerator(start, current, end)` methods of the
day-count classes, from the docstring formulas of
`pyfian.utils.day_count` (30/360 family: 30-day months with 31 capped to 30;
Actual variants: actual calendar days from `start` to `current`). -/
def numerator (conv : DayCountConv) (start current : Date) : ℚ :=
  match conv with
  | .thirty360 => (thirtyDays start current : ℚ)
  | .thirtyE360 => (thirtyDays start current : ℚ)
  | .thirty365 => (thirtyDays start current : ℚ)
  | .actActISDA => (actualDays start current : ℚ)
  | .actActBond => (actualDays start current : ℚ)
  | .act360 => (actualDays start current : ℚ)
  | .act365 => (actualDays start current : ℚ)

/-- Modelled from the spec: the `denominator(start, current, end)` methods of
the day-count classes. Fixed at 360 or 365 except for the Actual/Actual
variants, whose denominator is the actual days from `start` to `end` and which
therefore need `end` to be supplied (`none` models a missing/`None` `end`). -/
def denominator (conv : DayCountConv) (start : Date) (end_ : Option Date) :
    Option ℚ :=
  match conv with
  | .thirty360 => some 360
  | .thirtyE360 => some 360
  | .act360 => some 360
  | .act365 => some 365
  | .thirty365 => some 365
  | .actActISDA => end_.map (fun e => (actualDays start e : ℚ))
  | .actActBond => end_.map (fun e => (actualDays start e : ℚ))

/-- Modelled from the spec: `DayCountActualActualISDA.fraction`, which
"splits the interval by calendar year boundaries; for each sub-interval sums
actual_days_in_subinterval / days_in_that_calendar_year". The sub-interval of
the start year runs to January 1 of the following year, and the remainder is
handled recursively. -/
def isdaFraction (start current : Date) : ℚ :=
  if _h : current.y ≤ start.y then
    (actualDays start current : ℚ) / (daysInYear start.y : ℚ)
  else
    (actualDays start (jan1 (start.y + 1)) : ℚ) / (daysInYear start.y : ℚ) +
      isdaFraction (jan1 (start.y + 1)) current
termination_by (current.y - start.y).toNat
decreasing_by
  simp [jan1]
  omega

/-- Modelled from the spec: `fraction(start, current, end)`. Every convention
uses the base-class formula `numerator / denominator`, except that
`DayCountActualActualISDA` overrides `fraction` with the per-calendar-year
summation; the Actual/Actual variants fail (return `none`) when `end` is
missing. -/
def fraction (conv : DayCountConv) (start current : Date)
    (end_ : Option Date) : Option ℚ :=
  match conv with
  | .actActISDA => end_.map (fun _ => isdaFraction start current)
  | _ =>
    (denominator conv start end_).map (fun den => numerator conv start current / den)

/-- The days of `[start, current]` that fall inside calendar year `y`, for the
per-year decomposition of the Actual/Actual-ISDA fraction. -/
def overlapDays (start current : Date) (y : ℤ) : ℤ :=
  min (toSerial current) (toSerial (jan1 (y + 1))) -
    max (toSerial start) (toSerial (jan1 y))

/-- The Actual/Actual-ISDA fraction written directly as a sum over the calendar
years met by the interval, weighting each year's days by that year's length. -/
def isdaSumForm (start current : Date) : ℚ :=
  ∑ y ∈ Finset.Icc start.y current.y,
    (overlapDays start current y : ℚ) / (daysInYear y : ℚ)

lemma validDate_jan1 {y : ℤ} (hy : 1 ≤ y) : ValidDate (jan1 y) := by
  refine ⟨hy, ?_, ?_, ?_, ?_⟩ <;> simp [jan1, daysInMonth]

@[simp]
lemma jan1_y (y : ℤ) : (jan1 y).y = y := rfl

lemma isdaFraction_eq_sum_aux (n : ℕ) :
    ∀ start current : Date, current.y - start.y = n → ValidDate start →
      ValidDate current → isdaFraction start current = isdaSumForm start current := by
  induction n with
  | zero =>
    intro start current hn hs hc
    have hyy : start.y = current.y := by omega
    rw [isdaFraction]
    rw [dif_pos (by omega)]
    unfold isdaSumForm
    rw [hyy, Finset.Icc_self, Finset.sum_singleton]
    have hbs := toSerial_bounds hs
    have hbc := toSerial_bounds hc
    rw [hyy] at hbs
    have hmin : min (toSerial current) (toSerial (jan1 (current.y + 1)))
        = toSerial current := min_eq_left (le_of_lt hbc.2)
    have hmax : max (toSerial start) (toSerial (jan1 current.y))
        = toSerial start := max_eq_left hbs.1
    rw [overlapDays, hmin, hmax, actualDays]
  | succ k ih =>
    intro start current hn hs hc
    have hys : 1 ≤ start.y := hs.1
    have hlt : start.y < current.y := by omega
    rw [isdaFraction]
    rw [dif_neg (by omega)]
    have hs1 : ValidDate (jan1 (start.y + 1)) := validDate_jan1 (by omega)
    have hstep : isdaFraction (jan1 (start.y + 1)) current
        = isdaSumForm (jan1 (start.y + 1)) current := by
      refine ih (jan1 (start.y + 1)) current ?_ hs1 hc
      simp only [jan1_y]
      omega
    rw [hstep]
    unfold isdaSumForm
    have hsplit : Finset.Icc start.y current.y
        = insert start.y (Finset.Icc (start.y + 1) current.y) := by
      ext x
      simp only [Finset.mem_Icc, Finset.mem_insert]
      omega
    rw [hsplit, Finset.sum_insert (by simp)]
    have hbs := toSerial_bounds hs
    have hbc := toSerial_bounds hc
    have hhead : overlapDays start current start.y
        = actualDays start (jan1 (start.y + 1)) := by
      have h1 : toSerial (jan1 (start.y + 1)) ≤ toSerial current := by
        have := toSerial_jan1_mono (show start.y + 1 ≤ current.y by omega)
        exact le_trans this hbc.1
      rw [overlapDays, actualDays, min_eq_right h1, max_eq_left hbs.1]
    have htail : ∀ y ∈ Finset.Icc (start.y + 1) current.y,
        (overlapDays (jan1 (start.y + 1)) current y : ℚ) / (daysInYear y : ℚ)
          = (overlapDays start current y : ℚ) / (daysInYear y : ℚ) := by
      intro y hy
      simp only [Finset.mem_Icc] at hy
      have h1 : toSerial (jan1 (start.y + 1)) ≤ toSerial (jan1 y) :=
        toSerial_jan1_mono hy.1
      have h2 : toSerial start ≤ toSerial (jan1 y) :=
        le_trans (le_of_lt hbs.2) h1
      rw [overlapDays, overlapDays, max_eq_right h2, max_eq_right h1]
    simp only [jan1_y]
    rw [Finset.sum_congr rfl htail, hhead]

/-- The recursive Actual/Actual-ISDA fraction agrees, over valid dates in
increasing year order, with the explicit sum over calendar years of
`days_in_subinterval / days_in_that_calendar_year`. -/
lemma isdaFraction_eq_sum {start current : Date} (hs : ValidDate start)
    (hc : ValidDate current) (hy : start.y ≤ current.y) :
    isdaFraction start current = isdaSumForm start current :=
  isdaFraction_eq_sum_aux (current.y - start.y).toNat start current
    (by omega) hs hc

instance : Inhabited Date := ⟨⟨1, 1, 1⟩⟩

namespace CustomFlowBond

/-- Coupon of a payment date: an explicit `custom_coupons` entry overrides;
otherwise the per-period `custom_coupon_rates` percentage is applied to the
notional outstanding going into that date. -/
def couponAt (coupons : Date → Option ℚ) (rate : Date → ℚ) (remaining : ℚ)
    (d : Date) : ℚ :=
  match coupons d with
  | some c => c
  | none => rate d * remaining / 100

/-- Modelled from the spec: `CustomFlowBond.make_payment_flow`. Walks the
amortization schedule in order, carrying the outstanding notional; each row is
`(date, coupon, amortization)` where the coupon is an explicit value when one
is given and otherwise the per-period rate (in percent) applied to the
outstanding notional, which the doctest shows is the notional before that
date's own amortization is subtracted. -/
def make_payment_flow (coupons : Date → Option ℚ) (rate : Date → ℚ) :
    ℚ → List (Date × ℚ) → List (Date × ℚ × ℚ)
  | _, [] => []
  | remaining, (d, a) :: rest =>
    (d, couponAt coupons rate remaining d, a) ::
      make_payment_flow coupons rate (remaining - a) rest

/-- `coupon_flow`: coupon payment by payment date. -/
def coupon_flow (coupons : Date → Option ℚ) (rate : Date → ℚ) (notional : ℚ)
    (sched : List (Date × ℚ)) : List (Date × ℚ) :=
  (make_payment_flow coupons rate notional sched).map (fun r => (r.1, r.2.1))

/-- `payment_flow`: total payment (coupon + amortization) by payment date. -/
def payment_flow (coupons : Date → Option ℚ) (rate : Date → ℚ) (notional : ℚ)
    (sched : List (Date × ℚ)) : List (Date × ℚ) :=
  (make_payment_flow coupons rate notional sched).map
    (fun r => (r.1, r.2.1 + r.2.2))

/-- Notional still outstanding going into the `i`-th payment date: the
original notional less the amortizations at the strictly earlier schedule
positions. -/
def remainingBefore (notional : ℚ) (sched : List (Date × ℚ)) (i : ℕ) : ℚ :=
  notional - ((sched.take i).map (fun p => p.2)).sum

/-- Notional left after also applying the amortizations up to and including
date `d` (the claim's literal "remaining notional after amortization at that
date"). -/
def remainingAfterAmortAt (notional : ℚ) (sched : List (Date × ℚ))
    (d : Date) : ℚ :=
  notional -
    ((sched.filter (fun p => toSerial p.1 ≤ toSerial d)).map (fun p => p.2)).sum

end CustomFlowBond

namespace BulletBond

/-- Annual payment dates of a bullet bond with `cpn_freq = 1` whose issue and
maturity dates fall on the same month/day: one payment at each anniversary of
the issue date through maturity. -/
def paymentDates (issue : Date) (years : ℕ) : List Date :=
  (List.range years).map (fun k => ⟨issue.y + k + 1, issue.m, issue.d⟩)

/-- Modelled from the spec: `BulletBond.make_payment_flow` for an annual
(`cpn_freq = 1`) bullet bond spanning whole years: one coupon of
`notional * cpn / 100` per period, with the notional repaid on top of the
final coupon. -/
def payment_flow (issue : Date) (years : ℕ) (cpn notional : ℚ) :
    List (Date × ℚ) :=
  (paymentDates issue years).map
    (fun d =>
      (d, if d.y = issue.y + years then notional * cpn / 100 + notional
        else notional * cpn / 100))

/-- Modelled from the spec: `cash_flows(settlement_date)` — the payment
amounts at the dates still outstanding after the settlement date (the
notebook's doctest shows the payment falling on the settlement date itself is
excluded). -/
def cash_flows (issue : Date) (years : ℕ) (cpn notional : ℚ)
    (settlement : Date) : List ℚ :=
  ((payment_flow issue years cpn notional).filter
    (fun p => toSerial settlement < toSerial p.1)).map (fun p => p.2)

end BulletBond

namespace ParCurve

/-- Modelled from the spec: the discount-factor form of
`ParCurve._bootstrap_spot_rates`. Bonds are `(coupon_per_period, price)`
pairs on a face of 100, listed in strictly increasing maturity order with one
bond per coupon period. Processing them in that order, each step solves the
bond's present-value equation for the discount factor of its final cash flow,
using the already-bootstrapped discount factors (accumulated sum `s`) for the
earlier coupons. -/
def bootstrapDF (s : ℚ) : List (ℚ × ℚ) → List ℚ
  | [] => []
  | (c, p) :: rest =>
    (p - c * s) / (100 + c) :: bootstrapDF (s + (p - c * s) / (100 + c)) rest

/-- `_bootstrap_spot_rates`: bootstrap all discount factors from scratch. -/
def bootstrap_spot_rates (bonds : List (ℚ × ℚ)) : List ℚ :=
  bootstrapDF 0 bonds

/-- Present value of the `i`-th par bond (maturity `i + 1` periods) priced
off a list of bootstrapped discount factors: each coupon discounted by the
factor of its period, plus the redemption of 100 at maturity. -/
def presentValue (dfs : List ℚ) (c : ℚ) (i : ℕ) : ℚ :=
  c * ((dfs.take (i + 1)).sum) + 100 * dfs.getD i 0

/-- Modelled from the spec: the discount factor the documented example quotes
at `t = 1`: the one-year instrument is a zero-coupon bond with bond-equivalent
yield `y`, so its discount factor is `(1 + y/2)⁻²`. -/
def beyDiscountOneYear (y : ℚ) : ℚ :=
  1 / (1 + y / 2) ^ 2

end ParCurve

/-- The recognized `yield_calculation_convention` names. -/
def supportedYieldConventions : List String :=
  ["Annual", "BEY", "Continuous"]

/-- Modelled from the spec: the convention-name lookup performed by
`get_rate`/`date_rate` on every curve. -/
def parseYieldConvention (s : String) : Option String :=
  if s = "Annual" ∨ s = "BEY" ∨ s = "Continuous" then some s else none

/-- The `ValueError` message raised for an unrecognized
`yield_calculation_convention`, with the offending name interpolated. -/
def yieldConventionErrorMessage (s : String) : String :=
  "Unknown or unsupported yield calculation convention: " ++ s

/-- Modelled from the spec: the outcome of `get_rate`/`date_rate` as a
function of the requested convention name — a rate for a recognized name, and
the documented `ValueError` for any other name. -/
def get_rate_dispatch (native : ℚ) (name : String) : Except String ℚ :=
  match parseYieldConvention name with
  | some _ => Except.ok native
  | none => Except.error (yieldConventionErrorMessage name)

/-- The concrete curve classes of the library. -/
inductive CurveClass where
  | flatCurveLog
  | flatCurveAER
  | flatCurveBEY
  | zeroCouponCurve
  | interpolatedCurve
  | parCurve
deriving DecidableEq, Repr

/-- The default `day_count_convention` of each curve constructor, transcribed
from the constructor signatures in the repository's API documentation
(`FlatCurveLog`/`FlatCurveAER`/`InterpolatedCurve`/`ParCurve` say
`'actual/365'`; `FlatCurveBEY` says `'30/360'`; `ZeroCouponCurve` is modelled
from the spec as `'actual/365'`). -/
def default_day_count_convention : CurveClass → String
  | .flatCurveLog => "actual/365"
  | .flatCurveAER => "actual/365"
  | .flatCurveBEY => "30/360"
  | .zeroCouponCurve => "actual/365"
  | .interpolatedCurve => "actual/365"
  | .parCurve => "actual/365"

/-- The `yield_calculation_convention` values: Annual effective, bond
equivalent (semiannual), and continuous compounding. -/
inductive YieldConv where
  | annual
  | bey
  | continuous
deriving DecidableEq, Repr

/-- Modelled from the spec: the discount factor a rate `r` produces at
year-fraction `t` under each convention, from the docstring formulas of
`pyfian.yield_curves.flat_curve`: Continuous `e^{-rt}`, Annual `(1+r)^{-t}`,
BEY `(1+r/2)^{-2t}`. -/
noncomputable def discountOfRate : YieldConv → ℝ → ℝ → ℝ
  | .continuous, r, t => Real.exp (-(r * t))
  | .annual, r, t => (1 + r) ^ (-t)
  | .bey, r, t => (1 + r / 2) ^ (-(t * 2))

/-- Modelled from the spec: the `discount_to_rate` inversion formulas of the
flat-curve docstrings: Continuous `-log(D)/t`, Annual `(1/D)^{1/t} - 1`,
BEY `2((1/D)^{1/(2t)} - 1)`. -/
noncomputable def rateOfDiscount : YieldConv → ℝ → ℝ → ℝ
  | .continuous, d, t => -Real.log d / t
  | .annual, d, t => (1 / d) ^ (1 / t) - 1
  | .bey, d, t => 2 * ((1 / d) ^ (1 / (t * 2)) - 1)

/-- Domain of rates a convention's discounting can faithfully represent
(the compounding base must stay positive). -/
def rateDomain : YieldConv → ℝ → Prop
  | .continuous, _ => True
  | .annual, r => 0 < 1 + r
  | .bey, r => 0 < 1 + r / 2

namespace FlatCurveLog

/-- Modelled from the spec: `FlatCurveLog.discount_t`, docstring formula
`D(t) = e^{-(r+s)t}`. -/
noncomputable def discount_t (log_rate t spread : ℝ) : ℝ :=
  Real.exp (-((log_rate + spread) * t))

/-- Modelled from the spec: `FlatCurveLog.discount_to_rate`, docstring formula
`r = -log(D(t))/t - s`. -/
noncomputable def discount_to_rate (d t spread : ℝ) : ℝ :=
  -Real.log d / t - spread

/-- Modelled from the spec: `FlatCurveLog.get_rate` — the native continuous
rate, re-expressed in a different convention by converting the curve's
discount factor back to a rate in that convention. -/
noncomputable def get_rate (log_rate t : ℝ) (conv : YieldConv) (spread : ℝ) :
    ℝ :=
  match conv with
  | .continuous => log_rate + spread
  | c => rateOfDiscount c (discount_t log_rate t spread) t

end FlatCurveLog

namespace FlatCurveAER

/-- Modelled from the spec: `FlatCurveAER.discount_t`, docstring formula
`D(t) = (1 + r + s)^{-t}`. -/
noncomputable def discount_t (aer t spread : ℝ) : ℝ :=
  (1 + aer + spread) ^ (-t)

/-- Modelled from the spec: `FlatCurveAER.discount_to_rate`, docstring formula
`r = (1/D(t))^{1/t} - 1 - s`. -/
noncomputable def discount_to_rate (d t spread : ℝ) : ℝ :=
  (1 / d) ^ (1 / t) - 1 - spread

/-- Modelled from the spec: `FlatCurveAER.get_rate` — the native annual
effective rate, re-expressed in a different convention through the discount
factor. -/
noncomputable def get_rate (aer t : ℝ) (conv : YieldConv) (spread : ℝ) : ℝ :=
  match conv with
  | .annual => aer + spread
  | c => rateOfDiscount c (discount_t aer t spread) t

end FlatCurveAER

namespace FlatCurveBEY

/-- Modelled from the spec: `FlatCurveBEY.discount_t`, docstring formula
`D(t) = (1 + (r+s)/2)^{-2t}`. -/
noncomputable def discount_t (bey t spread : ℝ) : ℝ :=
  (1 + (bey + spread) / 2) ^ (-(t * 2))

/-- Modelled from the spec: `FlatCurveBEY.discount_to_rate`, docstring
formula `r = 2((1/D(t))^{1/(2t)} - 1) - s`. -/
noncomputable def discount_to_rate (d t spread : ℝ) : ℝ :=
  2 * ((1 / d) ^ (1 / (t * 2)) - 1) - spread

/-- Modelled from the spec: `FlatCurveBEY.get_rate` — the native bond
equivalent yield, re-expressed in a different convention through the discount
factor. -/
noncomputable def get_rate (bey t : ℝ) (conv : YieldConv) (spread : ℝ) : ℝ :=
  match conv with
  | .bey => bey + spread
  | c => rateOfDiscount c (discount_t bey t spread) t

end FlatCurveBEY

/-- Modelled from the spec: `ZeroCouponCurve` — a zero-rate lookup `get_t`
(the curve's maturity→rate mapping) together with the curve's
`yield_calculation_convention`. -/
structure ZeroCouponCurve where
  get_t : ℝ → ℝ
  conv : YieldConv

/-- `ZeroCouponCurve.discount_t`: the zero rate at `t`, discounted under the
curve's convention with the additive spread. -/
noncomputable def ZeroCouponCurve.discount_t (c : ZeroCouponCurve)
    (t spread : ℝ) : ℝ :=
  discountOfRate c.conv (c.get_t t + spread) t

/-- `ZeroCouponCurve.discount_to_rate`: the convention's inverse formula less
the spread. -/
noncomputable def ZeroCouponCurve.discount_to_rate (c : ZeroCouponCurve)
    (d t spread : ℝ) : ℝ :=
  rateOfDiscount c.conv d t - spread

/-- Modelled from the spec: `InterpolatedCurve` — its cubic-spline
interpolant over the pivots, abstracted as the interpolated zero-rate
function, with the curve's convention. -/
structure InterpolatedCurve where
  spline : ℝ → ℝ
  conv : YieldConv

/-- `InterpolatedCurve.discount_t` via the interpolated zero rate. -/
noncomputable def InterpolatedCurve.discount_t (c : InterpolatedCurve)
    (t spread : ℝ) : ℝ :=
  discountOfRate c.conv (c.spline t + spread) t

/-- `InterpolatedCurve.discount_to_rate`: the convention's inverse formula
less the spread. -/
noncomputable def InterpolatedCurve.discount_to_rate (c : InterpolatedCurve)
    (d t spread : ℝ) : ℝ :=
  rateOfDiscount c.conv d t - spread

/-- Modelled from the spec: the curve view of `ParCurve` — its bootstrapped
zero-rate function and convention. -/
structure ParCurveView where
  zero_rate : ℝ → ℝ
  conv : YieldConv

/-- `ParCurve.discount_t` via the bootstrapped zero rate. -/
noncomputable def ParCurveView.discount_t (c : ParCurveView) (t spread : ℝ) :
    ℝ :=
  discountOfRate c.conv (c.zero_rate t + spread) t

/-- `ParCurve.discount_to_rate`: the convention's inverse formula less the
spread. -/
noncomputable def ParCurveView.discount_to_rate (c : ParCurveView)
    (d t spread : ℝ) : ℝ :=
  rateOfDiscount c.conv d t - spread

/-- Inverting the discount factor recovers the discounted rate exactly, for
every convention, horizon `t > 0` and rate in the convention's domain. -/
lemma rateOfDiscount_discountOfRate (conv : YieldConv) {r t : ℝ} (ht : 0 < t)
    (hr : rateDomain conv r) :
    rateOfDiscount conv (discountOfRate conv r t) t = r := by
  cases conv with
  | continuous =>
    simp [rateOfDiscount, discountOfRate, Real.log_exp]
    field_simp
  | annual =>
    have hb : (0:ℝ) ≤ 1 + r := le_of_lt hr
    show (1 / (1 + r) ^ (-t)) ^ (1 / t) - 1 = r
    rw [Real.rpow_neg hb, one_div, inv_inv, ← Real.rpow_mul hb, mul_one_div,
      div_self (ne_of_gt ht), Real.rpow_one]
    ring
  | bey =>
    have hb : (0:ℝ) ≤ 1 + r / 2 := le_of_lt hr
    show 2 * ((1 / (1 + r / 2) ^ (-(t * 2))) ^ (1 / (t * 2)) - 1) = r
    rw [Real.rpow_neg hb, one_div, inv_inv, ← Real.rpow_mul hb, mul_one_div,
      div_self (by positivity), Real.rpow_one]
    ring

/-- Raising `e^x` to a real power multiplies the exponent. -/
lemma exp_rpow_eq (x y : ℝ) : (Real.exp x) ^ y = Real.exp (x * y) := by
  rw [Real.rpow_def_of_pos (Real.exp_pos x), Real.log_exp]

lemma flatLog_get_rate_annual (r t : ℝ) (ht : 0 < t) :
    FlatCurveLog.get_rate r t .annual 0 = Real.exp r - 1 := by
  show rateOfDiscount .annual (FlatCurveLog.discount_t r t 0) t = _
  simp only [rateOfDiscount, FlatCurveLog.discount_t]
  rw [Real.exp_neg, one_div, inv_inv, exp_rpow_eq]
  have harg : (r + 0) * t * (1 / t) = r := by field_simp
  rw [harg]

lemma flatLog_get_rate_bey (r t : ℝ) (ht : 0 < t) :
    FlatCurveLog.get_rate r t .bey 0 = 2 * (Real.exp (r / 2) - 1) := by
  show rateOfDiscount .bey (FlatCurveLog.discount_t r t 0) t = _
  simp only [rateOfDiscount, FlatCurveLog.discount_t]
  rw [Real.exp_neg, one_div, inv_inv, exp_rpow_eq]
  have harg : (r + 0) * t * (1 / (t * 2)) = r / 2 := by
    field_simp
    ring
  rw [harg]

lemma flatAER_get_rate_continuous (r t : ℝ) (ht : 0 < t) (hr : 0 < 1 + r) :
    FlatCurveAER.get_rate r t .continuous 0 = Real.log (1 + r) := by
  show rateOfDiscount .continuous (FlatCurveAER.discount_t r t 0) t = _
  simp only [rateOfDiscount, FlatCurveAER.discount_t]
  rw [add_zero, Real.log_rpow hr]
  field_simp

lemma flatAER_get_rate_bey (r t : ℝ) (ht : 0 < t) (hr : 0 < 1 + r) :
    FlatCurveAER.get_rate r t .bey 0 = 2 * ((1 + r) ^ ((1:ℝ)/2) - 1) := by
  show rateOfDiscount .bey (FlatCurveAER.discount_t r t 0) t = _
  simp only [rateOfDiscount, FlatCurveAER.discount_t]
  rw [add_zero, Real.rpow_neg hr.le, one_div, inv_inv, ← Real.rpow_mul hr.le]
  have harg : t * (1 / (t * 2)) = 1 / 2 := by
    field_simp
  rw [harg]

lemma flatBEY_get_rate_annual (r t : ℝ) (ht : 0 < t) (hr : 0 < 1 + r / 2) :
    FlatCurveBEY.get_rate r t .annual 0 = (1 + r / 2) ^ (2:ℕ) - 1 := by
  show rateOfDiscount .annual (FlatCurveBEY.discount_t r t 0) t = _
  simp only [rateOfDiscount, FlatCurveBEY.discount_t]
  rw [add_zero, Real.rpow_neg hr.le, one_div, inv_inv, ← Real.rpow_mul hr.le]
  have harg : t * 2 * (1 / t) = ((2:ℕ) : ℝ) := by
    field_simp
  rw [harg, Real.rpow_natCast]

lemma flatBEY_get_rate_continuous (r t : ℝ) (ht : 0 < t)
    (hr : 0 < 1 + r / 2) :
    FlatCurveBEY.get_rate r t .continuous 0 = 2 * Real.log (1 + r / 2) := by
  show rateOfDiscount .continuous (FlatCurveBEY.discount_t r t 0) t = _
  simp only [rateOfDiscount, FlatCurveBEY.discount_t]
  rw [add_zero, Real.log_rpow hr]
  field_simp
  ring

lemma exp_neg_half_twentieth_bound : |Real.exp (-0.05) - 0.951229| < 1e-6 := by
  have h := @Real.exp_bound (-0.05 : ℝ) (by rw [abs_le]; constructor <;> norm_num)
    4 (by norm_num)
  rw [Finset.sum_range_succ, Finset.sum_range_succ, Finset.sum_range_succ,
    Finset.sum_range_succ, Finset.sum_range_zero] at h
  have habs : |(-0.05 : ℝ)| = 0.05 := by
    rw [abs_of_nonpos (by norm_num)]
    norm_num
  rw [habs] at h
  norm_num [Nat.factorial] at h
  have h' := abs_le.mp h
  rw [abs_lt]
  norm_num at h' ⊢
  constructor <;> nlinarith [h'.1, h'.2]

lemma reprice_aux (bonds : List (ℚ × ℚ))
    (hc : ∀ cp ∈ bonds, (100 : ℚ) + cp.1 ≠ 0) :
    ∀ (s : ℚ) (i : ℕ), i < bonds.length →
      (bonds.getD i (0, 0)).1 *
          (s + ((ParCurve.bootstrapDF s bonds).take (i + 1)).sum)
          + 100 * (ParCurve.bootstrapDF s bonds).getD i 0
        = (bonds.getD i (0, 0)).2 := by
  induction bonds with
  | nil => intro s i hi; simp at hi
  | cons head rest ih =>
    intro s i hi
    obtain ⟨c, p⟩ := head
    have hcp : (100 : ℚ) + c ≠ 0 := hc (c, p) (List.mem_cons_self _ _)
    cases i with
    | zero =>
      simp [ParCurve.bootstrapDF]
      field_simp
      ring
    | succ j =>
      have hrest : ∀ cp ∈ rest, (100 : ℚ) + cp.1 ≠ 0 :=
        fun cp hcp' => hc cp (List.mem_cons_of_mem _ hcp')
      have hj : j < rest.length := by simpa using hi
      have hmain := ih hrest (s + (p - c * s) / (100 + c)) j hj
      simp only [ParCurve.bootstrapDF, List.getD_cons_succ, List.take_succ_cons,
        List.sum_cons]
      calc (rest.getD j (0, 0)).1 *
            (s + ((p - c * s) / (100 + c) +
              ((ParCurve.bootstrapDF (s + (p - c * s) / (100 + c)) rest).take
                (j + 1)).sum))
            + 100 * (ParCurve.bootstrapDF (s + (p - c * s) / (100 + c))
                rest).getD j 0
          = (rest.getD j (0, 0)).1 *
            ((s + (p - c * s) / (100 + c)) +
              ((ParCurve.bootstrapDF (s + (p - c * s) / (100 + c)) rest).take
                (j + 1)).sum)
            + 100 * (ParCurve.bootstrapDF (s + (p - c * s) / (100 + c))
                rest).getD j 0 := by
            ring
        _ = (rest.getD j (0, 0)).2 := hmain

lemma couponFlow_aux (coupons : Date → Option ℚ) (rate : Date → ℚ) :
    ∀ (sched : List (Date × ℚ)) (rem : ℚ) (i : ℕ), i < sched.length →
      ((CustomFlowBond.make_payment_flow coupons rate rem sched).getD i
          (default, 0, 0)).2.1
        = CustomFlowBond.couponAt coupons rate
            (rem - ((sched.take i).map (fun p => p.2)).sum)
            (sched.getD i default).1 := by
  intro sched
  induction sched with
  | nil => intro rem i hi; simp at hi
  | cons head rest ih =>
    intro rem i hi
    obtain ⟨d, a⟩ := head
    cases i with
    | zero => simp [CustomFlowBond.make_payment_flow]
    | succ j =>
      have hj : j < rest.length := by simpa using hi
      have hmain := ih (rem - a) j hj
      simp only [CustomFlowBond.make_payment_flow, List.getD_cons_succ,
        List.take_succ_cons, List.map_cons, List.sum_cons]
      rw [hmain]
      congr 1
      ring

/-- C1: Bootstrapping a zero-coupon curve from par bonds (processed in
strictly increasing maturity order, each step using all previously
bootstrapped discount factors) reprices every input bond exactly at its
quoted price; and in the documented 2025-08-22 example the one-year
instrument's discount factor `discount_t(1)` is the BEY zero-coupon factor
`(1 + 0.0395/2)⁻²` = 0.9616401157 (to 10 decimals), with 0.0395 the unique
rate (`get_rate(1)`) producing that factor. -/
theorem claim_C1_par_bootstrap :
    (∀ bonds : List (ℚ × ℚ), (∀ cp ∈ bonds, (100 : ℚ) + cp.1 ≠ 0) →
      ∀ i : ℕ, i < bonds.length →
        ParCurve.presentValue (ParCurve.bootstrap_spot_rates bonds)
            (bonds.getD i (0, 0)).1 i
          = (bonds.getD i (0, 0)).2) ∧
    |ParCurve.beyDiscountOneYear 0.0395 - 0.9616401157| < 1e-10 ∧
    (∀ y : ℚ, -2 < y →
      ParCurve.beyDiscountOneYear y = ParCurve.beyDiscountOneYear 0.0395 →
      y = 0.0395) := by
  refine ⟨?_, ?_, ?_⟩
  · intro bonds hc i hi
    have h := reprice_aux bonds hc 0 i hi
    simpa [ParCurve.presentValue, ParCurve.bootstrap_spot_rates] using h
  · norm_num [ParCurve.beyDiscountOneYear, abs_lt]
  · intro y hy h
    unfold ParCurve.beyDiscountOneYear at h
    have hpos : (0:ℚ) < 1 + y / 2 := by linarith
    have h2 : ((1 : ℚ) + y / 2) ^ 2 = (1 + (0.0395:ℚ) / 2) ^ 2 := by
      rw [one_div, one_div] at h
      exact inv_inj.mp h
    have hfac : ((1 + y / 2 : ℚ) ^ 2 - (1 + (0.0395:ℚ) / 2) ^ 2)
        = ((y - 0.0395) / 2) * (y / 2 + 2.01975) := by ring
    have hzero : ((y - 0.0395 : ℚ) / 2) * (y / 2 + 2.01975) = 0 := by
      rw [← hfac, h2]
      ring
    have hpos2 : (0:ℚ) < y / 2 + 2.01975 := by linarith
    rcases mul_eq_zero.mp hzero with h0 | h0
    · linarith
    · linarith

/-- Witness for C1: a two-bond curve (a one-period zero-coupon bond at 96 and
a two-period 5%-coupon bond at par) is repriced exactly by its bootstrapped
discount factors. -/
theorem claim_C1_par_bootstrap_witness :
    (∀ cp ∈ [((0:ℚ), (96:ℚ)), (5, 100)], (100 : ℚ) + cp.1 ≠ 0) ∧
    ParCurve.presentValue
        (ParCurve.bootstrap_spot_rates [((0:ℚ), (96:ℚ)), (5, 100)])
        (([((0:ℚ), (96:ℚ)), (5, 100)].getD 1 (0, 0)).1) 1
      = ([((0:ℚ), (96:ℚ)), (5, 100)].getD 1 (0, 0)).2 := by
  constructor
  · intro cp hcp
    simp only [List.mem_cons, List.not_mem_nil, or_false] at hcp
    rcases hcp with h | h <;> subst h <;> norm_num
  · refine claim_C1_par_bootstrap.1 [((0:ℚ), (96:ℚ)), (5, 100)] ?_ 1 (by norm_num)
    intro cp hcp
    simp only [List.mem_cons, List.not_mem_nil, or_false] at hcp
    rcases hcp with h | h <;> subst h <;> norm_num

/-- C2: the flat-curve discount factors follow the documented formulas for
every rate, spread and non-negative horizon — Log `e^{-(r+s)t}`, AER
`(1+r+s)^{-t}`, BEY `(1+(r+s)/2)^{-2t}` — and in particular
`FlatCurveLog(0.05, "2020-01-01").discount_t(1)` equals `exp(-0.05)`, which
is 0.951229 to six decimals. -/
theorem claim_C2_flat_discount_formulas :
    (∀ r s t : ℝ, 0 ≤ t →
      FlatCurveLog.discount_t r t s = Real.exp (-((r + s) * t)) ∧
      FlatCurveAER.discount_t r t s = (1 + r + s) ^ (-t) ∧
      FlatCurveBEY.discount_t r t s = (1 + (r + s) / 2) ^ (-(t * 2))) ∧
    FlatCurveLog.discount_t 0.05 1 0 = Real.exp (-0.05) ∧
    |Real.exp (-0.05) - 0.951229| < 1e-6 := by
  refine ⟨fun r s t _ => ⟨rfl, rfl, rfl⟩, ?_, exp_neg_half_twentieth_bound⟩
  unfold FlatCurveLog.discount_t
  norm_num

/-- Witness for C2 at rate 0.05, zero spread, horizon 1. -/
theorem claim_C2_flat_discount_formulas_witness :
    (0:ℝ) ≤ 1 ∧
    FlatCurveLog.discount_t 0.05 1 0 = Real.exp (-((0.05 + 0) * 1)) :=
  ⟨by norm_num, (claim_C2_flat_discount_formulas.1 0.05 0 1 (by norm_num)).1⟩

/-- C3: for every concrete curve type, converting the curve's own discount
factor back to a rate with `discount_to_rate` recovers the native rate
exactly (hence within 1e-9) at every horizon `t > 0`, with zero spread, for
rates in the convention's domain. -/
theorem claim_C3_discount_to_rate_roundtrip (r t : ℝ) (ht : 0 < t) :
    (FlatCurveLog.discount_to_rate (FlatCurveLog.discount_t r t 0) t 0 = r) ∧
    (0 < 1 + r →
      FlatCurveAER.discount_to_rate (FlatCurveAER.discount_t r t 0) t 0 = r) ∧
    (0 < 1 + r / 2 →
      FlatCurveBEY.discount_to_rate (FlatCurveBEY.discount_t r t 0) t 0 = r) ∧
    (∀ c : ZeroCouponCurve, rateDomain c.conv (c.get_t t) →
      c.discount_to_rate (c.discount_t t 0) t 0 = c.get_t t) ∧
    (∀ c : InterpolatedCurve, rateDomain c.conv (c.spline t) →
      c.discount_to_rate (c.discount_t t 0) t 0 = c.spline t) ∧
    (∀ c : ParCurveView, rateDomain c.conv (c.zero_rate t) →
      c.discount_to_rate (c.discount_t t 0) t 0 = c.zero_rate t) := by
  refine ⟨?_, ?_, ?_, ?_, ?_, ?_⟩
  · have h := rateOfDiscount_discountOfRate .continuous ht
      (show rateDomain .continuous r from trivial)
    simp only [rateOfDiscount, discountOfRate] at h
    simp only [FlatCurveLog.discount_to_rate, FlatCurveLog.discount_t,
      add_zero, sub_zero]
    exact h
  · intro hr
    have h := rateOfDiscount_discountOfRate .annual ht hr
    simp only [rateOfDiscount, discountOfRate] at h
    simp only [FlatCurveAER.discount_to_rate, FlatCurveAER.discount_t,
      add_zero, sub_zero]
    exact h
  · intro hr
    have h := rateOfDiscount_discountOfRate .bey ht hr
    simp only [rateOfDiscount, discountOfRate] at h
    simp only [FlatCurveBEY.discount_to_rate, FlatCurveBEY.discount_t,
      add_zero, sub_zero]
    exact h
  · intro c hdom
    have h := rateOfDiscount_discountOfRate c.conv ht hdom
    simp only [ZeroCouponCurve.discount_to_rate, ZeroCouponCurve.discount_t,
      add_zero, sub_zero]
    exact h
  · intro c hdom
    have h := rateOfDiscount_discountOfRate c.conv ht hdom
    simp only [InterpolatedCurve.discount_to_rate, InterpolatedCurve.discount_t,
      add_zero, sub_zero]
    exact h
  · intro c hdom
    have h := rateOfDiscount_discountOfRate c.conv ht hdom
    simp only [ParCurveView.discount_to_rate, ParCurveView.discount_t,
      add_zero, sub_zero]
    exact h

/-- Witness for C3 at rate 0.05 and horizon 2, including a concrete
annual-convention zero-coupon curve at rate 0.04. -/
theorem claim_C3_discount_to_rate_roundtrip_witness :
    (0:ℝ) < 2 ∧
    FlatCurveLog.discount_to_rate (FlatCurveLog.discount_t 0.05 2 0) 2 0
      = 0.05 ∧
    ZeroCouponCurve.discount_to_rate ⟨fun _ => 0.04, .annual⟩
        (ZeroCouponCurve.discount_t ⟨fun _ => 0.04, .annual⟩ 2 0) 2 0
      = 0.04 := by
  refine ⟨by norm_num,
    (claim_C3_discount_to_rate_roundtrip 0.05 2 (by norm_num)).1, ?_⟩
  exact (claim_C3_discount_to_rate_roundtrip 0.04 2 (by norm_num)).2.2.2.1
    ⟨fun _ => 0.04, .annual⟩ (by show (0:ℝ) < 1 + 0.04; norm_num)

/-- C4: `get_rate` re-expresses the native rate in the requested convention
by the exact conversion formulas — from a continuous rate,
`r_annual = e^{r} - 1` and `r_bey = 2(e^{r/2} - 1)`; from an annual rate,
`r_log = ln(1+r)` and (through the discount factor) `r_bey = 2(√(1+r) - 1)`;
from a BEY rate, `r_log = 2 ln(1+r/2)` and `r_annual = (1+r/2)² - 1` — and
in particular `FlatCurveAER(0.05).get_rate(1, "BEY")` equals 0.0493901532 to
within 1e-9. -/
theorem claim_C4_get_rate_conversions (r t : ℝ) (ht : 0 < t)
    (h1 : 0 < 1 + r) (h2 : 0 < 1 + r / 2) :
    FlatCurveLog.get_rate r t .annual 0 = Real.exp r - 1 ∧
    FlatCurveLog.get_rate r t .bey 0 = 2 * (Real.exp (r / 2) - 1) ∧
    FlatCurveAER.get_rate r t .continuous 0 = Real.log (1 + r) ∧
    FlatCurveAER.get_rate r t .bey 0 = 2 * ((1 + r) ^ ((1:ℝ)/2) - 1) ∧
    FlatCurveBEY.get_rate r t .continuous 0 = 2 * Real.log (1 + r / 2) ∧
    FlatCurveBEY.get_rate r t .annual 0 = (1 + r / 2) ^ (2:ℕ) - 1 ∧
    |FlatCurveAER.get_rate 0.05 1 .bey 0 - 0.0493901532| < 1e-9 := by
  refine ⟨flatLog_get_rate_annual r t ht, flatLog_get_rate_bey r t ht,
    flatAER_get_rate_continuous r t ht h1, flatAER_get_rate_bey r t ht h1,
    flatBEY_get_rate_continuous r t ht h2, flatBEY_get_rate_annual r t ht h2,
    ?_⟩
  have hx := flatAER_get_rate_bey 0.05 1 (by norm_num) (by norm_num)
  rw [hx]
  have h2' : ((1 : ℝ) + 0.05) = 1.05 := by norm_num
  rw [h2', ← Real.sqrt_eq_rpow]
  have hlo : (1.02469507655 : ℝ) < Real.sqrt 1.05 :=
    (Real.lt_sqrt (by norm_num)).mpr (by norm_num)
  have hhi : Real.sqrt 1.05 < 1.02469507665 :=
    (Real.sqrt_lt' (by norm_num)).mpr (by norm_num)
  rw [abs_lt]
  constructor <;> nlinarith

/-- Witness for C4 at rate 0.05 and horizon 1. -/
theorem claim_C4_get_rate_conversions_witness :
    (0:ℝ) < 1 ∧
    FlatCurveLog.get_rate 0.05 1 .annual 0 = Real.exp 0.05 - 1 :=
  ⟨by norm_num,
    (claim_C4_get_rate_conversions 0.05 1 (by norm_num) (by norm_num)
      (by norm_num)).1⟩

/-- C5 counterexample: the claim "fraction equals numerator/denominator for
every day-count convention" fails for Actual/Actual-ISDA. On the repository's
own doctest input (start 2024-12-31, current and end 2025-01-01) the
numerator and denominator are both 1 day, yet the documented fraction is
1/366, not 1/1. -/
theorem claim_C5_fraction_counterexample :
    numerator .actActISDA ⟨2024,12,31⟩ ⟨2025,1,1⟩ = 1 ∧
    denominator .actActISDA ⟨2024,12,31⟩ (some ⟨2025,1,1⟩) = some 1 ∧
    fraction .actActISDA ⟨2024,12,31⟩ ⟨2025,1,1⟩ (some ⟨2025,1,1⟩)
      = some (1/366) ∧
    (1/366 : ℚ) ≠ 1 / 1 := by
  refine ⟨?_, ?_, ?_, by norm_num⟩
  · norm_num [numerator, actualDays, toSerial, daysBeforeYear, daysBeforeMonth,
      is_leap_year]
  · norm_num [denominator, actualDays, toSerial, daysBeforeYear,
      daysBeforeMonth, is_leap_year]
  · rw [fraction]
    rw [Option.map]
    rw [isdaFraction, isdaFraction]
    norm_num [actualDays, toSerial, daysBeforeYear, daysBeforeMonth,
      is_leap_year, daysInYear, jan1]

/-- C5 (amended): for every day-count convention except Actual/Actual-ISDA
(whose `fraction` is overridden with the per-calendar-year summation),
`fraction` equals `numerator / denominator` whenever the denominator is
defined; the Actual/Actual variants fail (return nothing) when `end` is
missing; and the documented doctest values hold for each convention. -/
theorem claim_C5_fraction_amended :
    (∀ (conv : DayCountConv) (start current : Date) (e : Option Date)
      (den : ℚ), conv ≠ DayCountConv.actActISDA →
      denominator conv start e = some den →
      fraction conv start current e
        = some (numerator conv start current / den)) ∧
    (∀ start current : Date,
      fraction .actActISDA start current none = none ∧
      fraction .actActBond start current none = none ∧
      denominator .actActISDA start none = none ∧
      denominator .actActBond start none = none) ∧
    fraction .thirty360 ⟨2024,1,31⟩ ⟨2024,2,28⟩ (some ⟨2024,2,28⟩)
      = some (28/360) ∧
    fraction .act360 ⟨2024,1,1⟩ ⟨2024,7,1⟩ (some ⟨2024,7,1⟩)
      = some (182/360) ∧
    fraction .act365 ⟨2024,1,1⟩ ⟨2024,7,1⟩ (some ⟨2024,7,1⟩)
      = some (182/365) ∧
    fraction .thirty365 ⟨2024,1,31⟩ ⟨2024,2,28⟩ (some ⟨2024,2,28⟩)
      = some (28/365) ∧
    fraction .actActBond ⟨2024,1,1⟩ ⟨2024,7,1⟩ (some ⟨2024,7,1⟩)
      = some 1 := by
  refine ⟨?_, ?_, ?_, ?_, ?_, ?_, ?_⟩
  · intro conv start current e den hne hden
    cases conv with
    | actActISDA => exact absurd rfl hne
    | actActBond =>
      cases e with
      | none => simp [denominator] at hden
      | some e0 =>
        simp only [denominator, Option.map_some', Option.some.injEq] at hden
        subst hden
        simp [fraction, denominator]
    | thirty360 =>
      simp only [denominator, Option.some.injEq] at hden
      subst hden
      simp [fraction, denominator]
    | thirtyE360 =>
      simp only [denominator, Option.some.injEq] at hden
      subst hden
      simp [fraction, denominator]
    | act360 =>
      simp only [denominator, Option.some.injEq] at hden
      subst hden
      simp [fraction, denominator]
    | act365 =>
      simp only [denominator, Option.some.injEq] at hden
      subst hden
      simp [fraction, denominator]
    | thirty365 =>
      simp only [denominator, Option.some.injEq] at hden
      subst hden
      simp [fraction, denominator]
  · intro start current
    refine ⟨?_, ?_, ?_, ?_⟩ <;> simp [fraction, denominator]
  · norm_num [fraction, numerator, denominator, thirtyDays, cap30]
  · norm_num [fraction, numerator, denominator, actualDays, toSerial,
      daysBeforeYear, daysBeforeMonth, is_leap_year]
  · norm_num [fraction, numerator, denominator, actualDays, toSerial,
      daysBeforeYear, daysBeforeMonth, is_leap_year]
  · norm_num [fraction, numerator, denominator, thirtyDays, cap30]
  · norm_num [fraction, numerator, denominator, actualDays, toSerial,
      daysBeforeYear, daysBeforeMonth, is_leap_year]

/-- Witness for C5 (amended) on the 30/360 doctest dates. -/
theorem claim_C5_fraction_amended_witness :
    DayCountConv.thirty360 ≠ DayCountConv.actActISDA ∧
    denominator .thirty360 ⟨2024,1,31⟩ (some ⟨2024,2,28⟩) = some 360 ∧
    fraction .thirty360 ⟨2024,1,31⟩ ⟨2024,2,28⟩ (some ⟨2024,2,28⟩)
      = some (numerator .thirty360 ⟨2024,1,31⟩ ⟨2024,2,28⟩ / 360) :=
  ⟨by decide, rfl,
    claim_C5_fraction_amended.1 .thirty360 ⟨2024,1,31⟩ ⟨2024,2,28⟩
      (some ⟨2024,2,28⟩) 360 (by decide) rfl⟩

/-- C6: the Actual/Actual-ISDA fraction splits `[start, current]` at calendar
year boundaries and sums, year by year, the days falling in that year divided
by that year's length (366 for leap years, else 365); on the doctest input
`fraction(2024-12-31, 2025-01-01, 2025-01-01)` it equals 1/366, which is
0.00273224043715847 to the printed precision. -/
theorem claim_C6_isda_year_split :
    (∀ start current : Date, ValidDate start → ValidDate current →
      start.y ≤ current.y →
      isdaFraction start current = isdaSumForm start current) ∧
    fraction .actActISDA ⟨2024,12,31⟩ ⟨2025,1,1⟩ (some ⟨2025,1,1⟩)
      = some (1/366) ∧
    |(1/366 : ℚ) - 0.00273224043715847| < 1e-16 := by
  refine ⟨fun s c hs hc hy => isdaFraction_eq_sum hs hc hy, ?_, ?_⟩
  · rw [fraction]
    rw [Option.map]
    rw [isdaFraction, isdaFraction]
    norm_num [actualDays, toSerial, daysBeforeYear, daysBeforeMonth,
      is_leap_year, daysInYear, jan1]
  · norm_num [abs_lt]

/-- Witness for C6 on the doctest dates 2024-12-31 → 2025-01-01. -/
theorem claim_C6_isda_year_split_witness :
    ValidDate ⟨2024,12,31⟩ ∧ ValidDate ⟨2025,1,1⟩ ∧
    isdaFraction ⟨2024,12,31⟩ ⟨2025,1,1⟩
      = isdaSumForm ⟨2024,12,31⟩ ⟨2025,1,1⟩ :=
  ⟨by decide, by decide,
    claim_C6_isda_year_split.1 ⟨2024,12,31⟩ ⟨2025,1,1⟩ (by decide) (by decide)
      (by decide)⟩

/-- C7 counterexample: with notional 100, amortization
{2025-01-01: 30, 2026-01-01: 30, 2027-01-01: 40} and uniform rate 5.0, the
computed first coupon is 5.0 (5% of the notional still outstanding going
into that date, 100), whereas the claim's formula — the rate applied to the
"remaining notional after amortization at that date", 100 − 30 = 70 — would
give 3.5. -/
theorem claim_C7_custom_coupon_counterexample :
    CustomFlowBond.coupon_flow (fun _ => none) (fun _ => 5) 100
        [(⟨2025,1,1⟩, 30), (⟨2026,1,1⟩, 30), (⟨2027,1,1⟩, 40)]
      = [(⟨2025,1,1⟩, 5), (⟨2026,1,1⟩, 7/2), (⟨2027,1,1⟩, 2)] ∧
    (5 : ℚ) / 100 * CustomFlowBond.remainingAfterAmortAt 100
        [(⟨2025,1,1⟩, 30), (⟨2026,1,1⟩, 30), (⟨2027,1,1⟩, 40)] ⟨2025,1,1⟩
      = 7/2 ∧
    (5 : ℚ) ≠ 7/2 := by
  refine ⟨?_, ?_, by norm_num⟩
  · norm_num [CustomFlowBond.coupon_flow, CustomFlowBond.make_payment_flow,
      CustomFlowBond.couponAt]
  · norm_num [CustomFlowBond.remainingAfterAmortAt, List.filter, toSerial,
      daysBeforeYear, daysBeforeMonth, is_leap_year]

/-- C7 (amended): in `make_payment_flow` every payment date's coupon is the
explicit `custom_coupons` value when one is given, and otherwise the
per-period rate (in percent) applied to the notional remaining after the
amortizations at the strictly earlier schedule dates (i.e. before that
date's own amortization); the documented example flows follow — coupons
{2025: 5.0, 2026: 3.5, 2027: 2.0} for the uniform 5.0 rate, and payment =
coupon + amortization per date. -/
theorem claim_C7_custom_coupon_amended :
    (∀ (coupons : Date → Option ℚ) (rate : Date → ℚ) (notional : ℚ)
      (sched : List (Date × ℚ)) (i : ℕ), i < sched.length →
      ((CustomFlowBond.make_payment_flow coupons rate notional sched).getD i
          (default, 0, 0)).2.1
        = CustomFlowBond.couponAt coupons rate
            (CustomFlowBond.remainingBefore notional sched i)
            (sched.getD i default).1) ∧
    (∀ (coupons : Date → Option ℚ) (rate : Date → ℚ) (rem : ℚ) (d : Date)
      (c : ℚ), coupons d = some c →
      CustomFlowBond.couponAt coupons rate rem d = c) ∧
    (∀ (coupons : Date → Option ℚ) (rate : Date → ℚ) (rem : ℚ) (d : Date),
      coupons d = none →
      CustomFlowBond.couponAt coupons rate rem d = rate d * rem / 100) ∧
    CustomFlowBond.coupon_flow (fun _ => none) (fun _ => 5) 100
        [(⟨2025,1,1⟩, 30), (⟨2026,1,1⟩, 30), (⟨2027,1,1⟩, 40)]
      = [(⟨2025,1,1⟩, 5), (⟨2026,1,1⟩, 7/2), (⟨2027,1,1⟩, 2)] ∧
    CustomFlowBond.payment_flow (fun _ => none) (fun _ => 5) 100
        [(⟨2025,1,1⟩, 30), (⟨2026,1,1⟩, 30), (⟨2027,1,1⟩, 40)]
      = [(⟨2025,1,1⟩, 35), (⟨2026,1,1⟩, 67/2), (⟨2027,1,1⟩, 42)] := by
  refine ⟨?_, ?_, ?_, ?_, ?_⟩
  · intro coupons rate notional sched i hi
    exact couponFlow_aux coupons rate sched notional i hi
  · intro coupons rate rem d c hc
    simp [CustomFlowBond.couponAt, hc]
  · intro coupons rate rem d hc
    simp [CustomFlowBond.couponAt, hc]
  · norm_num [CustomFlowBond.coupon_flow, CustomFlowBond.make_payment_flow,
      CustomFlowBond.couponAt]
  · norm_num [CustomFlowBond.payment_flow, CustomFlowBond.make_payment_flow,
      CustomFlowBond.couponAt]

/-- Witness for C7 (amended): the second coupon of the uniform-rate example
equals the rate applied to the notional left after the first amortization. -/
theorem claim_C7_custom_coupon_amended_witness :
    (1 : ℕ) < ([(⟨2025,1,1⟩, 30), (⟨2026,1,1⟩, 30),
      ((⟨2027,1,1⟩ : Date), (40:ℚ))]).length ∧
    ((CustomFlowBond.make_payment_flow (fun _ => none) (fun _ => 5) 100
        [(⟨2025,1,1⟩, 30), (⟨2026,1,1⟩, 30), (⟨2027,1,1⟩, 40)]).getD 1
        (default, 0, 0)).2.1
      = CustomFlowBond.couponAt (fun _ => none) (fun _ => 5)
          (CustomFlowBond.remainingBefore 100
            [(⟨2025,1,1⟩, 30), (⟨2026,1,1⟩, 30), (⟨2027,1,1⟩, 40)] 1)
          (([(⟨2025,1,1⟩, 30), (⟨2026,1,1⟩, 30),
            ((⟨2027,1,1⟩ : Date), (40:ℚ))]).getD 1 default).1 :=
  ⟨by norm_num,
    claim_C7_custom_coupon_amended.1 (fun _ => none) (fun _ => 5) 100
      [(⟨2025,1,1⟩, 30), (⟨2026,1,1⟩, 30), (⟨2027,1,1⟩, 40)] 1 (by norm_num)⟩

/-- C8: requesting a rate under a `yield_calculation_convention` name other
than "Annual", "BEY" or "Continuous" fails with exactly
`ValueError("Unknown or unsupported yield calculation convention: <name>")`,
the offending name interpolated, while every recognized name succeeds. -/
theorem claim_C8_unknown_convention_error :
    (∀ (native : ℚ) (name : String), name ∉ supportedYieldConventions →
      get_rate_dispatch native name
        = Except.error
            ("Unknown or unsupported yield calculation convention: "
              ++ name)) ∧
    (∀ (native : ℚ) (name : String), name ∈ supportedYieldConventions →
      get_rate_dispatch native name = Except.ok native) := by
  constructor
  · intro native name h
    simp [supportedYieldConventions] at h
    simp [get_rate_dispatch, parseYieldConvention, yieldConventionErrorMessage,
      h.1, h.2.1, h.2.2]
  · intro native name h
    simp [supportedYieldConventions] at h
    rcases h with h | h | h <;>
      simp [get_rate_dispatch, parseYieldConvention, h]

/-- Witness for C8 with the doctest's offending name "Unknown". -/
theorem claim_C8_unknown_convention_error_witness :
    ("Unknown" : String) ∉ supportedYieldConventions ∧
    get_rate_dispatch 0.05 "Unknown"
      = Except.error
          ("Unknown or unsupported yield calculation convention: "
            ++ "Unknown") :=
  ⟨by decide, claim_C8_unknown_convention_error.1 0.05 "Unknown" (by decide)⟩

/-- C9 counterexample: not every curve constructor defaults its day-count
convention to Actual/365 — the `FlatCurveBEY` constructor signature defaults
to "30/360". -/
theorem claim_C9_default_day_count_counterexample :
    default_day_count_convention .flatCurveBEY = "30/360" ∧
    ("30/360" : String) ≠ "actual/365" :=
  ⟨rfl, by decide⟩

/-- C9 (amended): every curve constructor defaults its day-count convention
to Actual/365 when the argument is not supplied, except `FlatCurveBEY`, whose
documented default is 30/360. -/
theorem claim_C9_default_day_count_amended :
    ∀ c : CurveClass, default_day_count_convention c
      = if c = CurveClass.flatCurveBEY then "30/360" else "actual/365" := by
  intro c
  cases c <;> rfl

/-- C10: the bullet bond issued 2020-01-01, maturing 2025-01-01, coupon 5,
annual frequency, notional 1000, has exactly the three remaining annual
payments [50, 50, 1050] left after settlement 2022-01-01 (a coupon of 50 per
remaining annual period, the notional repayment added to the final one). -/
theorem claim_C10_bullet_cash_flows :
    BulletBond.cash_flows ⟨2020,1,1⟩ 5 5 1000 ⟨2022,1,1⟩ = [50, 50, 1050] := by
  norm_num [BulletBond.cash_flows, BulletBond.payment_flow,
    BulletBond.paymentDates, List.range_succ, toSerial, daysBeforeYear,
    daysBeforeMonth, is_leap_year, List.filter, List.map]

end PyFian
